import Mathlib

/-!
Verification development for the `node-facebook-api` client library
(`src/index.ts`, class `NodeFacebook`).

The TypeScript source is shallowly embedded below:
* pure computations (URL normalization, query-map manipulation, version
  templating, config merging, response decoding) become Lean functions;
* the mutable class instance becomes an explicit `NodeFacebook` state record;
* JavaScript runtime failures (a `TypeError` thrown before the network is
  reached) and rejected promises become `Except` values;
* the injected HTTP transport (`node-fetch`) is modelled at the boundary: a
  verb method evaluates to `.ok r` exactly when the source would invoke the
  transport once with the request descriptor `r`, and to `.error e` when the
  source throws before any network call.

Machine integers in the HMAC-SHA256 model are `Nat` with explicit reduction
modulo `2 ^ 32`.
-/

/-! ## Bytes, hex and UTF-8 helpers -/

/-- Reduce modulo `2 ^ 32` (32-bit word semantics, explicit on `Nat`). -/
def w32 (x : Nat) : Nat := x % 4294967296

/-- Right rotation of a 32-bit word by `n` bits. -/
def rotr32 (n x : Nat) : Nat := w32 (x / 2 ^ n + x % 2 ^ n * 2 ^ (32 - n))

/-- Logical right shift of a 32-bit word. -/
def shr32 (n x : Nat) : Nat := x / 2 ^ n

/-- Bitwise complement of a 32-bit word (valid on inputs below `2 ^ 32`). -/
def not32 (x : Nat) : Nat := 4294967295 - x

/-- UTF-8 encoding of a Unicode code point, as a list of bytes. -/
def utf8Bytes (n : Nat) : List Nat :=
  if n < 128 then [n]
  else if n < 2048 then [192 + n / 64, 128 + n % 64]
  else if n < 65536 then [224 + n / 4096, 128 + n / 64 % 64, 128 + n % 64]
  else [240 + n / 262144, 128 + n / 4096 % 64, 128 + n / 64 % 64, 128 + n % 64]

/-- UTF-8 bytes of a string (how Node hashes and percent-encodes strings). -/
def strBytes (s : String) : List Nat := (s.data.map (fun c => utf8Bytes c.toNat)).flatten

/-- Lowercase hexadecimal digit for a value below 16. -/
def hexDigit (n : Nat) : Char := if n < 10 then Char.ofNat (48 + n) else Char.ofNat (87 + n)

/-- Two lowercase hex digits of a byte. -/
def byteToHex (b : Nat) : List Char := [hexDigit (b / 16), hexDigit (b % 16)]

/-- Lowercase hex string of a byte list (Node `digest('hex')`). -/
def bytesToHex (bs : List Nat) : String := ⟨(bs.map byteToHex).flatten⟩

/-! ## SHA-256 and HMAC-SHA256

Model of Node's `crypto.createHmac('sha256', key).update(msg).digest('hex')`
used at `src/index.ts:300-302`.  This is a full FIPS 180-4 SHA-256 over byte
lists (`Nat` words reduced mod `2 ^ 32`) with the RFC 2104 HMAC construction
on top; the repository itself only calls into Node's `crypto`. -/

/-- SHA-256 round constants (fractional parts of cube roots of the first 64
primes, as 32-bit words). -/
def sha256K : List Nat :=
  [1116352408, 1899447441, 3049323471, 3921009573, 961987163, 1508970993,
   2453635748, 2870763221, 3624381080, 310598401, 607225278, 1426881987,
   1925078388, 2162078206, 2614888103, 3248222580, 3835390401, 4022224774,
   264347078, 604807628, 770255983, 1249150122, 1555081692, 1996064986,
   2554220882, 2821834349, 2952996808, 3210313671, 3336571891, 3584528711,
   113926993, 338241895, 666307205, 773529912, 1294757372, 1396182291,
   1695183700, 1986661051, 2177026350, 2456956037, 2730485921, 2820302411,
   3259730800, 3345764771, 3516065817, 3600352804, 4094571909, 275423344,
   430227734, 506948616, 659060556, 883997877, 958139571, 1322822218,
   1537002063, 1747873779, 1955562222, 2024104815, 2227730452, 2361852424,
   2428436474, 2756734187, 3204031479, 3329325298]

/-- SHA-256 initial hash values. -/
def sha256H0 : List Nat :=
  [1779033703, 3144134277, 1013904242, 2773480762, 1359893119, 2600822924,
   528734635, 1541459225]

/-- Big-endian 8-byte encoding of a length in bits. -/
def be64 (n : Nat) : List Nat :=
  [n / 2 ^ 56 % 256, n / 2 ^ 48 % 256, n / 2 ^ 40 % 256, n / 2 ^ 32 % 256,
   n / 2 ^ 24 % 256, n / 2 ^ 16 % 256, n / 2 ^ 8 % 256, n % 256]

/-- Big-endian 4-byte encoding of a 32-bit word. -/
def be32 (n : Nat) : List Nat := [n / 2 ^ 24 % 256, n / 2 ^ 16 % 256, n / 2 ^ 8 % 256, n % 256]

/-- SHA-256 message padding: append `0x80`, zeros, and the bit length. -/
def padBytes (msg : List Nat) : List Nat :=
  let z := (119 - msg.length % 64) % 64
  msg ++ [128] ++ List.replicate z 0 ++ be64 (8 * msg.length)

/-- Group bytes into big-endian 32-bit words. -/
def bytesToWords : List Nat → List Nat
  | a :: b :: c :: d :: rest => (a * 2 ^ 24 + b * 2 ^ 16 + c * 2 ^ 8 + d) :: bytesToWords rest
  | _ => []

/-- Split a word list into blocks of 16 words; the structural fuel
`l.length` strictly dominates the number of blocks, so the result is the
full block decomposition for every input. -/
def chunk16Go : Nat → List Nat → List (List Nat)
  | 0, _ => []
  | _, [] => []
  | fuel + 1, x :: xs => ((x :: xs).take 16) :: chunk16Go fuel ((x :: xs).drop 16)

/-- Split a word list into blocks of 16 words. -/
def chunk16 (l : List Nat) : List (List Nat) := chunk16Go l.length l

/-- SHA-256 message schedule: extend a 16-word block to 64 words. -/
def msgSchedule (block : List Nat) : Array Nat :=
  (List.range 48).foldl
    (fun w j =>
      let i := j + 16
      let s0 :=
        (rotr32 7 (w.getD (i - 15) 0)) ^^^ (rotr32 18 (w.getD (i - 15) 0)) ^^^
          shr32 3 (w.getD (i - 15) 0)
      let s1 :=
        (rotr32 17 (w.getD (i - 2) 0)) ^^^ (rotr32 19 (w.getD (i - 2) 0)) ^^^
          shr32 10 (w.getD (i - 2) 0)
      w.push (w32 (w.getD (i - 16) 0 + s0 + w.getD (i - 7) 0 + s1)))
    block.toArray

/-- One SHA-256 compression step over a 16-word block. -/
def sha256Compress (hs : List Nat) (block : List Nat) : List Nat :=
  let w := msgSchedule block
  let st0 := (hs.getD 0 0, hs.getD 1 0, hs.getD 2 0, hs.getD 3 0,
              hs.getD 4 0, hs.getD 5 0, hs.getD 6 0, hs.getD 7 0)
  let stF := (List.range 64).foldl
    (fun st i =>
      let (a, b, c, d, e, f, g, h) := st
      let S1 := (rotr32 6 e) ^^^ (rotr32 11 e) ^^^ (rotr32 25 e)
      let ch := (e &&& f) ^^^ (not32 e &&& g)
      let t1 := w32 (h + S1 + ch + sha256K.getD i 0 + w.getD i 0)
      let S0 := (rotr32 2 a) ^^^ (rotr32 13 a) ^^^ (rotr32 22 a)
      let maj := (a &&& b) ^^^ (a &&& c) ^^^ (b &&& c)
      let t2 := w32 (S0 + maj)
      (w32 (t1 + t2), a, b, c, w32 (d + t1), e, f, g))
    st0
  let (a, b, c, d, e, f, g, h) := stF
  List.zipWith (fun x y => w32 (x + y)) hs [a, b, c, d, e, f, g, h]

/-- SHA-256 of a byte list, as 32 bytes. -/
def sha256Bytes (msg : List Nat) : List Nat :=
  let blocks := chunk16 (bytesToWords (padBytes msg))
  ((blocks.foldl sha256Compress sha256H0).map be32).flatten

/-- HMAC-SHA256 over byte lists (RFC 2104). -/
def hmacSha256 (key msg : List Nat) : List Nat :=
  let k := if key.length > 64 then sha256Bytes key else key
  let k := k ++ List.replicate (64 - k.length) 0
  sha256Bytes ((k.map (fun b => b ^^^ 92)) ++ sha256Bytes ((k.map (fun b => b ^^^ 54)) ++ msg))

/-- Hex HMAC-SHA256 of string `msg` keyed by string `key`, the model of
`crypto.createHmac('sha256', key).update(msg).digest('hex')`. -/
def hmacSha256Hex (key msg : String) : String :=
  bytesToHex (hmacSha256 (strBytes key) (strBytes msg))

/-! ## JavaScript query maps (`ParsedUrlQueryInput` objects)

A caller-supplied params object is modelled as an ordered association list.
JavaScript objects have unique keys; the operations below agree with property
access, property assignment (which keeps an existing key's position) and
`delete` on every duplicate-free list. -/

/-- A JavaScript primitive appearing as a query/body value in this library
(strings and booleans are the only shapes the source passes). -/
inductive QVal where
  | str (s : String)
  | bool (b : Bool)
deriving DecidableEq, Repr

/-- An ordered string-keyed map, modelling a JS object literal. -/
abbrev QueryMap := List (String × QVal)

/-- JS truthiness of a primitive: the empty string and `false` are falsy. -/
def jsTruthy : QVal → Bool
  | .str s => s ≠ ""
  | .bool b => b

/-- JS truthiness of an optional property (`undefined` is falsy). -/
def jsTruthyOpt : Option QVal → Bool
  | none => false
  | some v => jsTruthy v

/-- Property read `q[k]`: first entry with the given key. -/
def getQ : QueryMap → String → Option QVal
  | [], _ => none
  | (k', v) :: r, k => if k' = k then some v else getQ r k

/-- Property assignment `q[k] = v`: overwrite in place, else append. -/
def setQ : QueryMap → String → QVal → QueryMap
  | [], k, v => [(k, v)]
  | (k', v') :: r, k, v => if k' = k then (k, v) :: r else (k', v') :: setQ r k v

/-- Property removal `delete q[k]`. -/
def delQ : QueryMap → String → QueryMap
  | [], _ => []
  | (k', v') :: r, k => if k' = k then delQ r k else (k', v') :: delQ r k

/-! ## `querystring` serialization

Model of Node's `querystring.stringify`: each key and value is
percent-encoded like `encodeURIComponent` (unreserved bytes
`A-Z a-z 0-9 - _ . ! ~ * ' ( )` kept, every other UTF-8 byte rendered as
`%XX` with uppercase hex), booleans are rendered as `true` or `false`, and
the pairs are joined with `=` and `&` in map order. -/

/-- Characters `encodeURIComponent` and `querystring.escape` leave intact. -/
def qsUnreserved (c : Char) : Bool :=
  c.isAlphanum || c = '-' || c = '_' || c = '.' || c = '!' || c = '~' ||
    c = '*' || c = '\'' || c = '(' || c = ')'

/-- Uppercase hex digit for a value below 16. -/
def hexDigitU (n : Nat) : Char := if n < 10 then Char.ofNat (48 + n) else Char.ofNat (55 + n)

/-- Percent-encoding `%XX` of one byte, uppercase. -/
def pctByte (b : Nat) : List Char := ['%', hexDigitU (b / 16), hexDigitU (b % 16)]

/-- `querystring.escape` on one character. -/
def qsEscapeChar (c : Char) : List Char :=
  if qsUnreserved c then [c] else ((utf8Bytes c.toNat).map pctByte).flatten

/-- `querystring.escape` on a string. -/
def qsEscape (s : String) : String := ⟨(s.data.map qsEscapeChar).flatten⟩

/-- The string `querystring.stringify` renders for one primitive value. -/
def qsValueStr : QVal → String
  | .str s => qsEscape s
  | .bool b => if b then "true" else "false"

/-- `querystring.stringify` on a map. -/
def qsStringify (q : QueryMap) : String :=
  String.intercalate "&" (q.map (fun p => qsEscape p.1 ++ "=" ++ qsValueStr p.2))

/-- Minimal model of `JSON.stringify` on a flat object of primitives (used
for POST bodies; its output is opaque to every claim below). -/
def jsonStringify (q : QueryMap) : String :=
  "\x7b" ++
    String.intercalate ","
      (q.map (fun p =>
        "\"" ++ p.1 ++ "\":" ++
          match p.2 with
          | .str s => "\"" ++ s ++ "\""
          | .bool b => if b then "true" else "false")) ++
  "\x7d"

/-! ## String helpers corresponding to JS idioms -/

/-- JS `s.indexOf(pat) !== -1`: substring containment. -/
def strContains (s pat : String) : Bool :=
  s.data.tails.any (fun t => pat.data.isPrefixOf t)

/-- JS `String.prototype.trim`: strip whitespace from both ends. -/
def jsTrim (s : String) : String :=
  ⟨((s.data.dropWhile Char.isWhitespace).reverse.dropWhile Char.isWhitespace).reverse⟩

/-- JS `url.substr(-1) === '/'`: the string's last character is a slash. -/
def endsWithSlash (s : String) : Bool :=
  match s.data.getLast? with
  | some c => c = '/'
  | none => false

/-- Lowercasing for case-insensitive matching (the `/i` regex flag). -/
def lowerStr (s : String) : String := ⟨s.data.map Char.toLower⟩

/-- Case-insensitive substring containment. -/
def strContainsCI (s pat : String) : Bool := strContains (lowerStr s) (lowerStr pat)

/-- Whether the regex `/[?|&]method=delete/i` matches at the head of a
character list: a character of the class followed by `method=delete`,
case-insensitively. -/
def matchesDeleteAt : List Char → Bool
  | [] => false
  | c :: rest =>
    (c = '?' || c = '|' || c = '&') &&
      ((rest.take 13).map Char.toLower = "method=delete".data)

/-- JS `url.match(/[?|&]method=delete/i)` viewed as a Bool: the pattern
matches somewhere in the string. -/
def hasDeleteRe (s : String) : Bool := s.data.tails.any matchesDeleteAt

/-- The query component of a URL string: everything after the first `?`
(empty when there is no `?`). -/
def afterQuestionMark : List Char → List Char
  | [] => []
  | c :: r => if c = '?' then r else afterQuestionMark r

/-- The query component of a URL string. -/
def queryPart (s : String) : String := ⟨afterQuestionMark s.data⟩

/-! ## Client state (`class NodeFacebook`, `src/index.ts`) -/

/-- The resolved configuration object (`NodeFacebookConfig` with every field
present after the constructor's env merge, `src/index.ts:34-42`). -/
structure NodeFacebookConfig where
  client_id : String
  client_secret : String
  redirect_uri : String
  scope : String
  mobile : Bool
  version : String
  debug : Bool
deriving DecidableEq, Repr

/-- The mutable instance state of `class NodeFacebook`: the three derived
endpoint URLs, the resolved config and the current access token. -/
structure NodeFacebook where
  oAuthDialogUrl : String
  oAuthDialogUrlMobile : String
  graphUrl : String
  config : NodeFacebookConfig
  accessToken : String
deriving DecidableEq, Repr

/-- The class field `defaultVersion = '8.0'` (`src/index.ts:25`). -/
def defaultVersion : String := "8.0"

/-- A JavaScript runtime error thrown synchronously inside the library
before any network activity (here: the `TypeError` raised by assigning a
property on `undefined` in `normalizeUrl`). -/
inductive JsErr where
  | typeError
deriving DecidableEq, Repr

/-- The request descriptor handed to the injected transport (`node-fetch`):
URL, HTTP method, the `follow` redirect limit, and an optional body. -/
structure Request where
  url : String
  method : String
  follow : Nat
  body : Option String
deriving DecidableEq, Repr

namespace NodeFacebook

/-- `setVersion` (`src/index.ts:243-250`): store the version and regenerate
the three derived endpoint URLs. -/
def setVersion (st : NodeFacebook) (version : String) : NodeFacebook :=
  { st with
    config := { st.config with version := version }
    oAuthDialogUrl := "https://www.facebook.com/v" ++ version ++ "/dialog/oauth?"
    oAuthDialogUrlMobile := "https://m.www.facebook.com/v" ++ version ++ "/dialog/oauth?"
    graphUrl := "https://graph.facebook.com/v" ++ version }

/-- `setAccessToken` (`src/index.ts:255-259`). -/
def setAccessToken (st : NodeFacebook) (accessToken : String) : NodeFacebook :=
  { st with accessToken := accessToken }

/-- `getAccessToken` (`src/index.ts:264-266`). -/
def getAccessToken (st : NodeFacebook) : String := st.accessToken

/-- `setScope` (`src/index.ts:268-272`). -/
def setScope (st : NodeFacebook) (scope : String) : NodeFacebook :=
  { st with config := { st.config with scope := scope } }

/-- `getScope` (`src/index.ts:274-276`). -/
def getScope (st : NodeFacebook) : String := st.config.scope

/-- The path step of `normalizeUrl` (`src/index.ts:291-296`): trim the raw
URL and remove one leading slash. -/
def normalizePath (rawUrl : String) : String :=
  let url := jsTrim rawUrl
  match url.data with
  | '/' :: rest => ⟨rest⟩
  | _ => url

/-- The guard of `src/index.ts:299`: an access token is present, a client
secret is configured, and the URL string does not contain the substring
`appsecret_proof` (JS `&&` on truthiness). -/
def insertProofCond (st : NodeFacebook) (url : String) : Bool :=
  (st.accessToken ≠ "") && (st.config.client_secret ≠ "") &&
    !(strContains url "appsecret_proof")

/-- The query-map mutations of `normalizeUrl` (`src/index.ts:285-303`) for a
present params object: inject `access_token` unless `params.guest` is truthy,
delete `guest`, and add `appsecret_proof` under `insertProofCond`. -/
def normalizeQuery (st : NodeFacebook) (url : String) (q : QueryMap) : QueryMap :=
  let q := if jsTruthyOpt (getQ q "guest") then q
           else setQ q "access_token" (.str st.accessToken)
  let q := delQ q "guest"
  if insertProofCond st url then
    setQ q "appsecret_proof" (.str (hmacSha256Hex st.config.client_secret st.accessToken))
  else q

/-- `normalizeUrl` (`src/index.ts:278-312`).  When `params` is absent the
source evaluates `query.access_token = this.accessToken` on the `undefined`
result of the cast at line 279 and throws a `TypeError`; otherwise it returns
`{graphUrl}/{path}?{querystring.stringify(query)}`.  The `debug` logging at
line 307-309 is a side effect with no influence on the result and is not
modelled. -/
def normalizeUrl (st : NodeFacebook) (rawUrl : String) (params : Option QueryMap) :
    Except JsErr String :=
  match params with
  | none => .error .typeError
  | some q =>
    let url := normalizePath rawUrl
    let query := normalizeQuery st url q
    .ok (st.graphUrl ++ "/" ++ url ++ "?" ++ qsStringify query)

/-- `get` (`src/index.ts:86-93`) up to the transport boundary: `.ok r` means
the source calls `fetch` exactly once with descriptor `r` (method `get`,
`follow: 0`, no body); `.error` means it throws before any network call. -/
def get (st : NodeFacebook) (url : String) (params : Option QueryMap) :
    Except JsErr Request :=
  (normalizeUrl st url params).map
    (fun normalizedUrl => { url := normalizedUrl, method := "get", follow := 0, body := none })

/-- `post` (`src/index.ts:107-116`) up to the transport boundary: the source
calls `this.normalizeUrl(url)` with no params argument, then would POST the
JSON-encoded body with `follow: 0`. -/
def post (st : NodeFacebook) (url : String) (postData : QueryMap) :
    Except JsErr Request :=
  (normalizeUrl st url none).map
    (fun normalizedUrl =>
      { url := normalizedUrl, method := "post", follow := 0,
        body := some (jsonStringify postData) })

/-- The URL step of `delete` (`src/index.ts:128-131`): when the regex
`/[?|&]method=delete/i` does not match, append `&` if the URL contains `?`
(JS `~url.indexOf('?')`) else `?`, then `method=delete`. -/
def deleteUrlStep (url : String) : String :=
  if hasDeleteRe url then url
  else url ++ (if strContains url "?" then "&" else "?") ++ "method=delete"

/-- The body step of `delete` (`src/index.ts:133`), applied to the URL after
the `method=delete` step: `{}` when the URL string contains `access_token`,
else `{access_token: this.accessToken}`.  The caller-supplied `postData` is
unconditionally overwritten. -/
def deleteBody (st : NodeFacebook) (url : String) : QueryMap :=
  if strContains url "access_token" then [] else [("access_token", .str st.accessToken)]

/-- `delete` (`src/index.ts:127-136`): rewrite the URL, overwrite the body,
and delegate to `post`. -/
def delete (st : NodeFacebook) (url : String) (_postData : Option QueryMap) :
    Except JsErr Request :=
  let url := deleteUrlStep url
  post st url (deleteBody st url)

/-- `search` (`src/index.ts:145-149`): build the search path and delegate to
`get` with no params argument. -/
def search (st : NodeFacebook) (options : QueryMap) : Except JsErr Request :=
  get st ("/search?" ++ qsStringify options) none

/-- `batch` (`src/index.ts:160-165`): a single `post` to the empty path whose
body merges `access_token`, the JSON-encoded sub-requests (modelled as the
already-serialized string `reqsJson`) and the additional data
(`Object.assign` = assignment of each extra entry in order). -/
def batch (st : NodeFacebook) (reqsJson : String) (additionalData : QueryMap) :
    Except JsErr Request :=
  post st ""
    (additionalData.foldl (fun acc p => setQ acc p.1 p.2)
      [("access_token", .str st.accessToken), ("batch", .str reqsJson)])

end NodeFacebook

/-! ## Constructor (`src/index.ts:33-51`) -/

/-- The caller-supplied constructor argument (`NodeFacebookConfig` interface,
`src/index.ts:5-13`): four required strings, three optional fields. -/
structure ConfigInput where
  client_id : String
  client_secret : String
  redirect_uri : String
  scope : String
  mobile : Option Bool
  version : Option String
  debug : Option Bool
deriving DecidableEq, Repr

/-- The environment variables the constructor reads (`process.env`); `none`
models an unset variable. -/
structure FacebookEnv where
  FACEBOOK_CLIENT_ID : Option String
  FACEBOOK_CLIENT_SECRET : Option String
  FACEBOOK_REDIRECT_URI : Option String
  FACEBOOK_SCOPE : Option String
  FACEBOOK_MOBILE : Option String
  FACEBOOK_VERSION : Option String
  FACEBOOK_DEBUG : Option String
deriving DecidableEq, Repr

/-- JS `a || b` on strings: `a` unless it is falsy (empty). -/
def jsOrStr (a b : String) : String := if a = "" then b else a

/-- JS `env?.toLowerCase() === 'true'` on an optional env string. -/
def envTrue : Option String → Bool
  | none => false
  | some s => lowerStr s = "true"

/-- A string field of the optional constructor argument (`config?.f`,
`undefined` collapsing to the falsy empty string). -/
def explicitStr (cfg : Option ConfigInput) (f : ConfigInput → String) : String :=
  match cfg with
  | some c => f c
  | none => ""

/-- An optional string field of the optional constructor argument. -/
def explicitOptStr (cfg : Option ConfigInput) (f : ConfigInput → Option String) : String :=
  (cfg.bind f).getD ""

/-- An optional boolean field of the optional constructor argument
(`undefined` is falsy). -/
def explicitOptBool (cfg : Option ConfigInput) (f : ConfigInput → Option Bool) : Bool :=
  (cfg.bind f).getD false

/-- The `normalizedConfig` merge of `src/index.ts:34-42`: each field is the
JS `||`-chain of the explicit value, the environment value and the final
default (`''`, `false`, or `defaultVersion`). -/
def normalizedConfigOf (cfg : Option ConfigInput) (env : FacebookEnv) : NodeFacebookConfig :=
  { client_id := jsOrStr (explicitStr cfg (·.client_id)) (env.FACEBOOK_CLIENT_ID.getD "")
    client_secret := jsOrStr (explicitStr cfg (·.client_secret)) (env.FACEBOOK_CLIENT_SECRET.getD "")
    redirect_uri := jsOrStr (explicitStr cfg (·.redirect_uri)) (env.FACEBOOK_REDIRECT_URI.getD "")
    scope := jsOrStr (explicitStr cfg (·.scope)) (env.FACEBOOK_SCOPE.getD "")
    mobile := explicitOptBool cfg (·.mobile) || envTrue env.FACEBOOK_MOBILE
    version := jsOrStr (jsOrStr (explicitOptStr cfg (·.version)) (env.FACEBOOK_VERSION.getD ""))
      defaultVersion
    debug := explicitOptBool cfg (·.debug) || envTrue env.FACEBOOK_DEBUG }

/-- Scheme recognizer for `urlPathname`: consume a nonempty all-letter scheme
followed by `://` and return the remainder. -/
def schemeRest : List Char → Bool → Option (List Char)
  | [], _ => none
  | ':' :: '/' :: '/' :: r, seen => if seen then some r else none
  | c :: rest, _ => if c.isAlpha then schemeRest rest true else none

/-- Characters of a path up to the query or fragment delimiter. -/
def takeUntilQF : List Char → List Char
  | [] => []
  | c :: rest => if c = '?' || c = '#' then [] else c :: takeUntilQF rest

/-- Skip the host and extract the serialized path; a URL with no path
component serializes its pathname as `/`. -/
def findPath : List Char → List Char
  | [] => ['/']
  | c :: rest =>
    if c = '/' then '/' :: takeUntilQF rest
    else if c = '?' || c = '#' then ['/']
    else findPath rest

/-- Model of the WHATWG `new URL(s).pathname` getter (a Node builtin, not
repository code), restricted to canonical absolute URLs
`scheme://host[/path][?query][#fragment]` with an all-letter scheme and a
nonempty host — the shape of the redirect URIs this library documents.
`none` models a `TypeError` thrown by the `URL` constructor (and marks the
string as outside the modelled fragment). -/
def urlPathname (s : String) : Option String :=
  match schemeRest s.data false with
  | none => none
  | some r =>
    match r with
    | [] => none
    | c :: _ => if c = '/' || c = '?' || c = '#' then none else some ⟨findPath r⟩

/-- The redirect-URI normalization of `src/index.ts:44-46`: when
`new URL(uri).pathname === '/'` and the string's last character is not `/`,
append one slash; `none` when `new URL` throws. -/
def normalizeRedirectUri (s : String) : Option String :=
  match urlPathname s with
  | none => none
  | some p => some (if p = "/" && !(endsWithSlash s) then s ++ "/" else s)

namespace NodeFacebook

/-- The constructor (`src/index.ts:33-51`): merge explicit config with
environment fallbacks, normalize the redirect URI (propagating the `URL`
parser's throw as `.error`), store the config and call `setVersion` with the
resolved version. -/
def construct (cfg : Option ConfigInput) (env : FacebookEnv) : Except JsErr NodeFacebook :=
  let nc := normalizedConfigOf cfg env
  match normalizeRedirectUri nc.redirect_uri with
  | none => .error .typeError
  | some ru =>
    .ok (setVersion
      { oAuthDialogUrl := "", oAuthDialogUrlMobile := "", graphUrl := "",
        config := { nc with redirect_uri := ru }, accessToken := "" }
      nc.version)

end NodeFacebook

/-! ## Response decoding (`processResponse`, `src/index.ts:314-328`) -/

/-- The `error` object of a decoded graph response body. -/
structure FBError where
  type : String
  message : String
  code : Nat
  error_subcode : Nat
  fbtrace_id : String
deriving DecidableEq, Repr

/-- A decoded JSON response body: an optional `error` object (present models
a truthy `data.error`), an optional `access_token` field, and the remaining
payload fields kept opaque. -/
structure FBData where
  error : Option FBError
  access_token : Option String
  fields : List (String × String)
deriving DecidableEq, Repr

/-- The message of the `Error` thrown at `src/index.ts:318-324`: the template
literal interpolating the five fields of `data.error` (numbers rendered in
decimal as JS does). -/
def errMessageOf (e : FBError) : String :=
  "\n          type: " ++ e.type ++
    "\n          message: " ++ e.message ++
    "\n          code: " ++ toString e.code ++
    "\n          error_subcode : " ++ toString e.error_subcode ++
    "\n          fbtrace_id : " ++ e.fbtrace_id ++
    "\n          "

namespace NodeFacebook

/-- `processResponse` (`src/index.ts:314-328`) after the JSON decode: a body
with an `error` object makes the operation reject with the interpolated
`Error`; any other body is returned unchanged. -/
def processResponse (d : FBData) : Except String FBData :=
  match d.error with
  | some e => .error (errMessageOf e)
  | none => .ok d

end NodeFacebook

/-! ## Full call pipeline and the OAuth exchange (`authorize`) -/

/-- How a verb call can fail end to end: a synchronous JS error before the
network, a transport-level rejection (network failure or non-JSON body), or
the structured remote error raised by `processResponse`. -/
inductive CallErr where
  | js (e : JsErr)
  | transport (msg : String)
  | remote (msg : String)
deriving DecidableEq, Repr

namespace NodeFacebook

/-- A `get` call carried through the transport boundary: `transportResult`
is the outcome of the injected `fetch` + `response.json()` (performed only
when the request is actually issued), piped into `processResponse`. -/
def getCall (st : NodeFacebook) (url : String) (params : Option QueryMap)
    (transportResult : Except String FBData) : Except CallErr FBData :=
  match get st url params with
  | .error e => .error (.js e)
  | .ok _ =>
    match transportResult with
    | .error m => .error (.transport m)
    | .ok d =>
      match processResponse d with
      | .error m => .error (.remote m)
      | .ok d => .ok d

/-- The params object built by `authorize` (`src/index.ts:209-215`). -/
def authParams (st : NodeFacebook) (code : String) : QueryMap :=
  [("client_id", .str st.config.client_id),
   ("client_secret", .str st.config.client_secret),
   ("redirect_uri", .str st.config.redirect_uri),
   ("code", .str code),
   ("guest", .bool true)]

/-- `authorize` (`src/index.ts:208-220`): perform the guest-marked token
exchange `get`; on any rejection the `await` rethrows before the assignment
to `this.accessToken`, leaving the state untouched; on success store and
return `response.access_token` (a response without that field yields the JS
value `undefined`, modelled as the empty string, which is equally falsy). -/
def authorize (st : NodeFacebook) (code : String)
    (transportResult : Except String FBData) : NodeFacebook × Except CallErr String :=
  match getCall st "/oauth/access_token" (some (authParams st code)) transportResult with
  | .error e => (st, .error e)
  | .ok d =>
    let t := d.access_token.getD ""
    ({ st with accessToken := t }, .ok t)

end NodeFacebook

/-! ## Map and regex lemmas -/

theorem getQ_setQ_self (q : QueryMap) (k : String) (v : QVal) :
    getQ (setQ q k v) k = some v := by
  induction q with
  | nil => simp [setQ, getQ]
  | cons p r ih =>
    obtain ⟨k', v'⟩ := p
    by_cases h : k' = k
    · simp [setQ, getQ, h]
    · simp [setQ, getQ, h, ih]

theorem getQ_setQ_ne (q : QueryMap) (k : String) (v : QVal) (k₂ : String) (h : k ≠ k₂) :
    getQ (setQ q k v) k₂ = getQ q k₂ := by
  induction q with
  | nil => simp [setQ, getQ, h]
  | cons p r ih =>
    obtain ⟨k', v'⟩ := p
    by_cases h' : k' = k
    · subst h'
      simp [setQ, getQ, h]
    · simp [setQ, getQ, h', ih]

theorem getQ_delQ_self (q : QueryMap) (k : String) : getQ (delQ q k) k = none := by
  induction q with
  | nil => simp [delQ, getQ]
  | cons p r ih =>
    obtain ⟨k', v'⟩ := p
    by_cases h : k' = k
    · simp [delQ, h, ih]
    · simp [delQ, getQ, h, ih]

theorem getQ_delQ_ne (q : QueryMap) (k k₂ : String) (h : k ≠ k₂) :
    getQ (delQ q k) k₂ = getQ q k₂ := by
  induction q with
  | nil => simp [delQ]
  | cons p r ih =>
    obtain ⟨k', v'⟩ := p
    by_cases h' : k' = k
    · subst h'
      simp [delQ, getQ, h, ih]
    · simp [delQ, getQ, h', ih]

theorem hasDeleteRe_of_suffix (s : String) (t : List Char) (hsuf : t <:+ s.data)
    (hm : matchesDeleteAt t = true) : hasDeleteRe s = true := by
  unfold hasDeleteRe
  rw [List.any_eq_true]
  exact ⟨t, (List.mem_tails _ _).mpr hsuf, hm⟩

theorem hasDeleteRe_append (url sep : String) (h : sep = "&" ∨ sep = "?") :
    hasDeleteRe (url ++ sep ++ "method=delete") = true := by
  apply hasDeleteRe_of_suffix _ (sep.data ++ "method=delete".data)
  · have hd : (url ++ sep ++ "method=delete").data =
        url.data ++ (sep.data ++ "method=delete".data) := by
      simp [String.data_append]
    rw [hd]
    exact List.suffix_append _ _
  · rcases h with h | h <;> subst h <;> decide

/-! ## Claim theorems -/

set_option maxRecDepth 8192

set_option maxHeartbeats 1000000

/-- C1: the spec scenario says that after `setAccessToken("tok1")` a call to
`get("me")` with no params argument invokes the transport exactly once with
the signed URL `{apiBase}/me?access_token=tok1&appsecret_proof=<hmac>`.  On
the code as written this is false: `normalizeUrl` casts the absent params
object and assigns `query.access_token` on `undefined`, throwing a
`TypeError` before `fetch` is reached (first conjunct).  The claimed
behaviour — GET, redirects disabled, exactly that URL with the hex
HMAC-SHA256 of the token keyed by the client secret — is what the same call
produces when an explicit empty params map is supplied (second conjunct),
matching the code's own doc examples `fb.get('me')`. -/
theorem claim_C1_get_without_params_is_typeerror :
    (NodeFacebook.construct
        (some ⟨"123", "secret", "http://localhost:4000", "email", none, none, none⟩)
        ⟨none, none, none, none, none, none, none⟩).map
        (fun st => NodeFacebook.get (st.setAccessToken "tok1") "me" none)
      = .ok (.error .typeError) ∧
    (NodeFacebook.construct
        (some ⟨"123", "secret", "http://localhost:4000", "email", none, none, none⟩)
        ⟨none, none, none, none, none, none, none⟩).map
        (fun st => NodeFacebook.get (st.setAccessToken "tok1") "me" (some []))
      = .ok (.ok
          { url := "https://graph.facebook.com/v8.0/me?access_token=tok1&appsecret_proof=40645399dc4a7c9925a5e008c263f49daf1f5dd3e654d4ac3f25f4bf2ad5720e",
            method := "get", follow := 0, body := none }) :=
  ⟨rfl, by rfl⟩

/-- C2: every `post` (and therefore every `delete` and `batch`, which
delegate to it) and every `get` or `search` call that supplies no params map
rejects with a `TypeError` — `normalizeUrl` assigns `query.access_token` on
the absent params object — and the transport is never invoked (no `.ok`
request descriptor is ever produced). -/
theorem claim_C2_verbs_without_params_reject :
    ∀ (st : NodeFacebook) (url : String) (postData : QueryMap) (opts : QueryMap)
      (pd : Option QueryMap) (reqsJson : String) (extra : QueryMap),
      NodeFacebook.post st url postData = .error .typeError ∧
      NodeFacebook.get st url none = .error .typeError ∧
      NodeFacebook.search st opts = .error .typeError ∧
      NodeFacebook.delete st url pd = .error .typeError ∧
      NodeFacebook.batch st reqsJson extra = .error .typeError :=
  fun _ _ _ _ _ _ _ => ⟨rfl, rfl, rfl, rfl, rfl⟩

/-- C10: `setVersion v` sets the three derived URLs to exactly the
version-templated strings of `src/index.ts:245-247` and records `v` in the
config, and it is idempotent: applying it twice with the same `v` yields the
identical state, so the derived URLs are never stale with respect to the
stored version. -/
theorem claim_C10_setVersion_consistency :
    ∀ (st : NodeFacebook) (v : String),
      (NodeFacebook.setVersion st v).oAuthDialogUrl
          = "https://www.facebook.com/v" ++ v ++ "/dialog/oauth?" ∧
      (NodeFacebook.setVersion st v).oAuthDialogUrlMobile
          = "https://m.www.facebook.com/v" ++ v ++ "/dialog/oauth?" ∧
      (NodeFacebook.setVersion st v).graphUrl = "https://graph.facebook.com/v" ++ v ∧
      (NodeFacebook.setVersion st v).config.version = v ∧
      NodeFacebook.setVersion (NodeFacebook.setVersion st v) v = NodeFacebook.setVersion st v :=
  fun _ _ => ⟨rfl, rfl, rfl, rfl, rfl⟩

/-- C3 counterexample: the source guards the proof insertion by
`url.indexOf('appsecret_proof') === -1` — a check on the URL string, not on
the caller's query map.  With token `tok` and secret `sec` both non-empty
and a caller map that already carries an integrity proof (`zzz`), the map
still receives the HMAC entry, overwriting the caller's value; the claim's
"only if the caller's query map does not already contain an integrity
proof" is therefore false at this input. -/
theorem cex_C3_caller_proof_overwritten :
    getQ (NodeFacebook.normalizeQuery
        ⟨"", "", "https://graph.facebook.com/v8.0",
         ⟨"i", "sec", "r", "s", false, "8.0", false⟩, "tok"⟩
        "me" [("appsecret_proof", QVal.str "zzz")]) "appsecret_proof"
      = some (.str (hmacSha256Hex "sec" "tok")) ∧
    getQ [("appsecret_proof", QVal.str "zzz")] "appsecret_proof" = some (.str "zzz") :=
  ⟨rfl, rfl⟩

/-- C3 (amended): on every call through `normalizeUrl`, the final query map
carries `appsecret_proof = hmacSha256Hex(clientSecret, accessToken)` exactly
when the access token and client secret are non-empty and the (trimmed,
slash-stripped) URL string does not contain the substring `appsecret_proof`
— the condition is on the URL string, not the caller's map, and any
caller-supplied proof is overwritten in that case; otherwise the caller's
`appsecret_proof` entry (if any) is left untouched.  Since the inserted
value is a function of the secret and token alone, it is identical on every
call with those fixed. -/
theorem claim_C3_amended_appsecret_proof_insertion :
    ∀ (st : NodeFacebook) (rawUrl : String) (q : QueryMap),
      getQ (NodeFacebook.normalizeQuery st (NodeFacebook.normalizePath rawUrl) q)
          "appsecret_proof"
        = if NodeFacebook.insertProofCond st (NodeFacebook.normalizePath rawUrl)
          then some (.str (hmacSha256Hex st.config.client_secret st.accessToken))
          else getQ q "appsecret_proof" := by
  intro st rawUrl q
  simp only [NodeFacebook.normalizeQuery]
  cases hc : NodeFacebook.insertProofCond st (NodeFacebook.normalizePath rawUrl)
  · simp only [hc, Bool.false_eq_true, if_false]
    rw [getQ_delQ_ne _ _ _ (by decide)]
    cases hg : jsTruthyOpt (getQ q "guest")
    · simp only [hg, Bool.false_eq_true, if_false]
      exact getQ_setQ_ne q "access_token" _ "appsecret_proof" (by decide)
    · simp only [hg, if_true]
  · simp only [hc, if_true]
    exact getQ_setQ_self _ _ _

/-- C4 counterexample: a guest-marked params map that itself carries an
`access_token` entry serializes with that caller-supplied token in the query
string even though an access token (`tok`) is set on the client — the
claim's "contains no `access_token` field" is false at this input.  (The
client secret is empty here, so no proof entry is added.) -/
theorem cex_C4_guest_caller_token_serialized :
    NodeFacebook.normalizeUrl
        ⟨"", "", "https://graph.facebook.com/v8.0",
         ⟨"i", "", "r", "s", false, "8.0", false⟩, "tok"⟩
        "me" (some [("guest", QVal.bool true), ("access_token", QVal.str "callertok")])
      = .ok "https://graph.facebook.com/v8.0/me?access_token=callertok" ∧
    strContains "https://graph.facebook.com/v8.0/me?access_token=callertok" "access_token"
      = true :=
  ⟨rfl, rfl⟩

/-- C4 (amended): on every call through `normalizeUrl`, when the guest
marker is truthy the client's access token is never injected — the final
query map's `access_token` entry is exactly the caller-supplied one (absent
when the caller supplied none); without a truthy guest marker the current
`accessToken` is written under `access_token`, overwriting any
caller-supplied value.  The guest marker itself is always stripped before
serialization. -/
theorem claim_C4_amended_guest_token_rules :
    ∀ (st : NodeFacebook) (url : String) (q : QueryMap),
      (getQ (NodeFacebook.normalizeQuery st url q) "access_token"
        = if jsTruthyOpt (getQ q "guest") then getQ q "access_token"
          else some (.str st.accessToken)) ∧
      getQ (NodeFacebook.normalizeQuery st url q) "guest" = none := by
  intro st url q
  constructor
  · simp only [NodeFacebook.normalizeQuery]
    cases hc : NodeFacebook.insertProofCond st url
    · simp only [hc, Bool.false_eq_true, if_false]
      rw [getQ_delQ_ne _ _ _ (by decide)]
      cases hg : jsTruthyOpt (getQ q "guest")
      · simp only [hg, Bool.false_eq_true, if_false, getQ_setQ_self]
      · simp only [hg, if_true]
    · simp only [hc, if_true]
      rw [getQ_setQ_ne _ _ _ _ (by decide), getQ_delQ_ne _ _ _ (by decide)]
      cases hg : jsTruthyOpt (getQ q "guest")
      · simp only [hg, Bool.false_eq_true, if_false, getQ_setQ_self]
      · simp only [hg, if_true]
  · simp only [NodeFacebook.normalizeQuery]
    cases hc : NodeFacebook.insertProofCond st url
    · simp only [hc, Bool.false_eq_true, if_false, getQ_delQ_self]
    · simp only [hc, if_true]
      rw [getQ_setQ_ne _ _ _ _ (by decide), getQ_delQ_self]

/-- C5 counterexample: for the url string `a&method=delete` the regex
`/[?|&]method=delete/i` already matches (on the `&`-preceded occurrence), so
`delete` appends nothing — but the produced URL has no `?` at all, hence its
query component is empty and does not contain `method=delete`; the claim's
"produces a URL whose query contains `method=delete`" is false at this
input. -/
theorem cex_C5_query_lacks_method_delete :
    NodeFacebook.deleteUrlStep "a&method=delete" = "a&method=delete" ∧
    queryPart (NodeFacebook.deleteUrlStep "a&method=delete") = "" ∧
    strContainsCI (queryPart (NodeFacebook.deleteUrlStep "a&method=delete")) "method=delete"
      = false :=
  ⟨rfl, rfl, rfl⟩

/-- C5 (amended): for every url string, `delete` produces a URL in which
`method=delete` occurs (case-insensitively) preceded by one of `?`, `|`, `&`
— appending `?method=delete` or `&method=delete` (by whether the url already
contains `?`) exactly when the regex `/[?|&]method=delete/i` does not
already match; sets the POST body to `{}` when the resulting url string
contains the substring `access_token` and to `{access_token: currentToken}`
otherwise, ignoring any caller-supplied body; and delegates to `post` with
that url and body. -/
theorem claim_C5_amended_delete_url_and_body :
    ∀ (st : NodeFacebook) (url : String) (postData : Option QueryMap),
      hasDeleteRe (NodeFacebook.deleteUrlStep url) = true ∧
      NodeFacebook.deleteUrlStep url
        = (if hasDeleteRe url then url
           else url ++ (if strContains url "?" then "&" else "?") ++ "method=delete") ∧
      NodeFacebook.deleteBody st (NodeFacebook.deleteUrlStep url)
        = (if strContains (NodeFacebook.deleteUrlStep url) "access_token" then []
           else [("access_token", QVal.str st.accessToken)]) ∧
      NodeFacebook.delete st url postData
        = NodeFacebook.post st (NodeFacebook.deleteUrlStep url)
            (NodeFacebook.deleteBody st (NodeFacebook.deleteUrlStep url)) := by
  intro st url postData
  refine ⟨?_, rfl, rfl, rfl⟩
  unfold NodeFacebook.deleteUrlStep
  cases hd : hasDeleteRe url
  · simp only [hd, Bool.false_eq_true, if_false]
    cases hq : strContains url "?"
    · simp only [hq, Bool.false_eq_true, if_false]
      exact hasDeleteRe_append url "?" (Or.inr rfl)
    · simp only [hq, if_true]
      exact hasDeleteRe_append url "&" (Or.inl rfl)
  · simp only [hd, if_true]

theorem strAppend_assoc (a b c : String) : a ++ b ++ c = a ++ (b ++ c) := by
  obtain ⟨la⟩ := a
  obtain ⟨lb⟩ := b
  obtain ⟨lc⟩ := c
  show String.mk ((la ++ lb) ++ lc) = String.mk (la ++ (lb ++ lc))
  rw [List.append_assoc]

/-- C6: a decoded response body containing an `error` object makes
`processResponse` — and hence every verb method, all of which pipe the
decoded body through it — fail with the interpolated `Error` whose message
carries the remote payload's `type`, `message`, `code`, `error_subcode` and
`fbtrace_id` verbatim (each appears as an unaltered segment of the thrown
message); a decoded body without an `error` field is returned unchanged. -/
theorem claim_C6_processResponse_error_surfacing :
    ∀ (d : FBData),
      (∀ e, d.error = some e →
        NodeFacebook.processResponse d = .error (errMessageOf e) ∧
        (∃ a b, errMessageOf e = a ++ e.type ++ b) ∧
        (∃ a b, errMessageOf e = a ++ e.message ++ b) ∧
        (∃ a b, errMessageOf e = a ++ toString e.code ++ b) ∧
        (∃ a b, errMessageOf e = a ++ toString e.error_subcode ++ b) ∧
        (∃ a b, errMessageOf e = a ++ e.fbtrace_id ++ b)) ∧
      (d.error = none → NodeFacebook.processResponse d = .ok d) := by
  intro d
  constructor
  · intro e he
    refine ⟨by simp [NodeFacebook.processResponse, he], ?_, ?_, ?_, ?_, ?_⟩
    · exact ⟨"\n          type: ",
        "\n          message: " ++ e.message ++ "\n          code: " ++ toString e.code ++
          "\n          error_subcode : " ++ toString e.error_subcode ++
          "\n          fbtrace_id : " ++ e.fbtrace_id ++ "\n          ",
        by simp [errMessageOf, strAppend_assoc]⟩
    · exact ⟨"\n          type: " ++ e.type ++ "\n          message: ",
        "\n          code: " ++ toString e.code ++
          "\n          error_subcode : " ++ toString e.error_subcode ++
          "\n          fbtrace_id : " ++ e.fbtrace_id ++ "\n          ",
        by simp [errMessageOf, strAppend_assoc]⟩
    · exact ⟨"\n          type: " ++ e.type ++ "\n          message: " ++ e.message ++
          "\n          code: ",
        "\n          error_subcode : " ++ toString e.error_subcode ++
          "\n          fbtrace_id : " ++ e.fbtrace_id ++ "\n          ",
        by simp [errMessageOf, strAppend_assoc]⟩
    · exact ⟨"\n          type: " ++ e.type ++ "\n          message: " ++ e.message ++
          "\n          code: " ++ toString e.code ++ "\n          error_subcode : ",
        "\n          fbtrace_id : " ++ e.fbtrace_id ++ "\n          ",
        by simp [errMessageOf, strAppend_assoc]⟩
    · exact ⟨"\n          type: " ++ e.type ++ "\n          message: " ++ e.message ++
          "\n          code: " ++ toString e.code ++ "\n          error_subcode : " ++
          toString e.error_subcode ++ "\n          fbtrace_id : ",
        "\n          ", by simp [errMessageOf, strAppend_assoc]⟩
  · intro he
    simp [NodeFacebook.processResponse, he]

theorem witness_C6_oauth_exception :
    NodeFacebook.processResponse
        ⟨some ⟨"OAuthException", "Invalid code", 100, 36007, "abc"⟩, none, []⟩
      = .error (errMessageOf ⟨"OAuthException", "Invalid code", 100, 36007, "abc"⟩) ∧
    NodeFacebook.processResponse ⟨none, some "newtok", []⟩ = .ok ⟨none, some "newtok", []⟩ :=
  ⟨((claim_C6_processResponse_error_surfacing
      ⟨some ⟨"OAuthException", "Invalid code", 100, 36007, "abc"⟩, none, []⟩).1
      ⟨"OAuthException", "Invalid code", 100, 36007, "abc"⟩ rfl).1,
   (claim_C6_processResponse_error_surfacing ⟨none, some "newtok", []⟩).2 rfl⟩

/-- C7: if the token-exchange `get` of `authorize` fails in any way — a
transport rejection, or a decoded body carrying an `error` object — the
stored `accessToken` is exactly its prior value (the whole state is
untouched) and the failure propagates; only when the decode succeeds without
an `error` field is `accessToken` overwritten, with the `access_token` field
extracted from the response, which is also returned. -/
theorem claim_C7_authorize_state :
    ∀ (st : NodeFacebook) (code : String) (tr : Except String FBData),
      (∀ e, NodeFacebook.getCall st "/oauth/access_token"
            (some (NodeFacebook.authParams st code)) tr = .error e →
        NodeFacebook.authorize st code tr = (st, .error e)) ∧
      (∀ d e, tr = .ok d → d.error = some e →
        NodeFacebook.authorize st code tr = (st, .error (.remote (errMessageOf e)))) ∧
      (∀ d t, NodeFacebook.getCall st "/oauth/access_token"
            (some (NodeFacebook.authParams st code)) tr = .ok d → d.access_token = some t →
        NodeFacebook.authorize st code tr = ({ st with accessToken := t }, .ok t)) := by
  intro st code tr
  refine ⟨?_, ?_, ?_⟩
  · intro e he
    simp [NodeFacebook.authorize, he]
  · intro d e htr he
    subst htr
    simp [NodeFacebook.authorize, NodeFacebook.getCall, NodeFacebook.get,
      NodeFacebook.normalizeUrl, NodeFacebook.processResponse, he, Except.map]
  · intro d t hok ht
    simp [NodeFacebook.authorize, hok, ht]

theorem witness_C7_authorize_cases :
    NodeFacebook.authorize ⟨"", "", "g", ⟨"i", "s", "r", "sc", false, "8.0", false⟩, "old"⟩
        "codeXYZ" (.ok ⟨none, some "newtok", []⟩)
      = (⟨"", "", "g", ⟨"i", "s", "r", "sc", false, "8.0", false⟩, "newtok"⟩, .ok "newtok") ∧
    NodeFacebook.authorize ⟨"", "", "g", ⟨"i", "s", "r", "sc", false, "8.0", false⟩, "old"⟩
        "codeXYZ" (.ok ⟨some ⟨"OAuthException", "Invalid code", 100, 36007, "abc"⟩, none, []⟩)
      = (⟨"", "", "g", ⟨"i", "s", "r", "sc", false, "8.0", false⟩, "old"⟩,
         .error (.remote (errMessageOf ⟨"OAuthException", "Invalid code", 100, 36007, "abc"⟩))) :=
  ⟨(claim_C7_authorize_state ⟨"", "", "g", ⟨"i", "s", "r", "sc", false, "8.0", false⟩, "old"⟩
      "codeXYZ" (.ok ⟨none, some "newtok", []⟩)).2.2
      ⟨none, some "newtok", []⟩ "newtok" rfl rfl,
   (claim_C7_authorize_state ⟨"", "", "g", ⟨"i", "s", "r", "sc", false, "8.0", false⟩, "old"⟩
      "codeXYZ" (.ok ⟨some ⟨"OAuthException", "Invalid code", 100, 36007, "abc"⟩, none, []⟩)).2.1
      ⟨some ⟨"OAuthException", "Invalid code", 100, 36007, "abc"⟩, none, []⟩
      ⟨"OAuthException", "Invalid code", 100, 36007, "abc"⟩ rfl rfl⟩

/-- C8 counterexample: with `mobile: false` supplied explicitly and
`FACEBOOK_MOBILE=true` in the environment, the resolved config has
`mobile = true` — the JS `||` chain treats the explicit `false` as falsy and
falls through to the environment, so the claim's "the explicitly supplied
constructor value whenever one is supplied" is false at this input. -/
theorem cex_C8_env_overrides_explicit_false_mobile :
    (normalizedConfigOf
        (some ⟨"id", "sec", "http://x/", "email", some false, some "8.0", some false⟩)
        ⟨none, none, none, none, some "true", none, none⟩).mobile = true :=
  rfl

/-- C8 (amended): each configuration field equals the explicitly supplied
constructor value whenever that value is truthy (a non-empty string; `true`
for the booleans); a falsy or absent explicit value falls through to the
environment value (boolean env vars count as set exactly when they lowercase
to `true`), and then to the default `''` / `false`, with the version
defaulting to `defaultVersion = "8.0"` when neither source supplies a
non-empty one. -/
theorem claim_C8_amended_config_merge :
    ∀ (c : ConfigInput) (env : FacebookEnv),
      ((normalizedConfigOf (some c) env).client_id
        = if c.client_id = "" then env.FACEBOOK_CLIENT_ID.getD "" else c.client_id) ∧
      ((normalizedConfigOf (some c) env).client_secret
        = if c.client_secret = "" then env.FACEBOOK_CLIENT_SECRET.getD "" else c.client_secret) ∧
      ((normalizedConfigOf (some c) env).redirect_uri
        = if c.redirect_uri = "" then env.FACEBOOK_REDIRECT_URI.getD "" else c.redirect_uri) ∧
      ((normalizedConfigOf (some c) env).scope
        = if c.scope = "" then env.FACEBOOK_SCOPE.getD "" else c.scope) ∧
      ((normalizedConfigOf (some c) env).mobile
        = (c.mobile.getD false || envTrue env.FACEBOOK_MOBILE)) ∧
      ((normalizedConfigOf (some c) env).debug
        = (c.debug.getD false || envTrue env.FACEBOOK_DEBUG)) ∧
      ((normalizedConfigOf (some c) env).version
        = if c.version.getD "" = "" then
            (if env.FACEBOOK_VERSION.getD "" = "" then defaultVersion
             else env.FACEBOOK_VERSION.getD "")
          else c.version.getD "") ∧
      (normalizedConfigOf none env).client_id = env.FACEBOOK_CLIENT_ID.getD "" ∧
      (normalizedConfigOf none env).mobile = envTrue env.FACEBOOK_MOBILE ∧
      ((normalizedConfigOf none env).version
        = if env.FACEBOOK_VERSION.getD "" = "" then defaultVersion
          else env.FACEBOOK_VERSION.getD "") := by
  intro c env
  refine ⟨rfl, rfl, rfl, rfl, rfl, rfl, ?_, by simp [normalizedConfigOf, jsOrStr, explicitStr],
    by simp [normalizedConfigOf, explicitOptBool], ?_⟩
  · by_cases h1 : c.version.getD "" = "" <;>
      by_cases h2 : env.FACEBOOK_VERSION.getD "" = "" <;>
        simp [normalizedConfigOf, jsOrStr, explicitOptStr, h1, h2]
  · by_cases h2 : env.FACEBOOK_VERSION.getD "" = "" <;>
      simp [normalizedConfigOf, jsOrStr, explicitOptStr, h2]

/-- C9: for every redirect URI the URL parser accepts, if its serialized
path component is root (`/`, which is also how an empty path serializes) and
the string's last character is not a slash, the stored value is the input
with exactly one trailing slash appended; for every URI with a non-root path
the stored value is the input unchanged.  `normalizeRedirectUri` is exactly
what `construct` stores into `config.redirect_uri`. -/
theorem claim_C9_redirect_uri_normalization :
    ∀ (s p : String), urlPathname s = some p →
      ((p = "/" ∧ endsWithSlash s = false) → normalizeRedirectUri s = some (s ++ "/")) ∧
      (p ≠ "/" → normalizeRedirectUri s = some s) := by
  intro s p h
  constructor
  · rintro ⟨hp, he⟩
    subst hp
    simp [normalizeRedirectUri, h, he]
  · intro hp
    simp [normalizeRedirectUri, h, hp]

theorem witness_C9_redirect_examples :
    urlPathname "http://localhost:4000" = some "/" ∧
    normalizeRedirectUri "http://localhost:4000" = some "http://localhost:4000/" ∧
    urlPathname "http://x/foo" = some "/foo" ∧
    normalizeRedirectUri "http://x/foo" = some "http://x/foo" :=
  ⟨rfl,
   (claim_C9_redirect_uri_normalization "http://localhost:4000" "/" rfl).1 ⟨rfl, rfl⟩,
   rfl,
   (claim_C9_redirect_uri_normalization "http://x/foo" "/foo" rfl).2 (by decide)⟩
